import Mathlib

/-!
# Verification of the tosca-parser value-validation core

Shallow embedding of the repository's three source files:

* `src/toscaparser/utils/validateutils.py` (primitive validators, `TOSCAVersionProperty`)
* `src/toscaparser/parameters.py` (`Input`, `Output`)
* `src/toscaparser/utils/hashutils.py` (`hash_all`)

Python values that flow through the validators are modelled by the inductive
type `PyVal`.  Python floats are modelled as rationals (every IEEE double is a
rational and Python's `int()` truncates the represented value toward zero, which
is what the claims about `validate_integer` concern).  The shared
`ExceptionCollector` diagnostic sink is modelled by returning the list of
appended error records (the spec describes the sink as record-and-continue);
uncaught Python exceptions (crashes) are modelled with `Except`/`Option`.
Diagnostics are modelled structurally: each `VError` constructor carries the
data interpolated into the corresponding Python message template.
-/

/-- A Python value, as far as the validators can observe it.  `float` carries a
rational (see the header comment); `dict` is an association list in insertion
order, mirroring Python's ordered dicts. -/
inductive PyVal where
  | none
  | bool (b : Bool)
  | int (n : Int)
  | float (q : ℚ)
  | str (s : String)
  | list (xs : List PyVal)
  | dict (entries : List (String × PyVal))

/-- Uncaught Python exceptions that the modelled code can raise. -/
inductive PyExn where
  | attributeError
  | indexError
  | typeError
deriving DecidableEq

/-- Error records appended to the `ExceptionCollector` sink.  Each constructor
corresponds to one `appendException` call site and carries the data that the
Python code interpolates into the message:

* `unknownField what field`   — `UnknownFieldError(what=..., field=...)`
* `missingRequiredField what required` — `MissingRequiredFieldError(what=..., required=...)`
* `invalidType formatted`     — `ValueError('Invalid type "%s".' % type)`; the
  carried string is the formatted `%s` argument
* `notNumeric v`              — `ValueError('"%s" is not a numeric.' % value)`
* `notAnInteger v`            — `ValueError('"%s" is not an integer.' % value)`
* `notAFloat v`               — `ValueError('"%s" is not a float.' % value)`
* `notAString v`              — `ValueError('"%s" is not a string.' % value)`
* `notAList v`                — `ValueError('"%s" is not a list.' % value)`
* `invalidRange v`            — `ValueError('"%s" is not a valid range.' % range)`
* `notABoolean v`             — `ValueError('"%s" is not a boolean.' % value)`
* `invalidTimestamp v msg`    — `ValueError('"%(val)s" is not a valid timestamp. "%(msg)s"')`
* `invalidVersion what`       — `InvalidTOSCAVersionPropertyException(what=self.version)`
  (`what` is `self.version` at the moment of the append, which may be `None`)
-/
inductive VError where
  | unknownField (what : String) (field : String)
  | missingRequiredField (what : String) (required : String)
  | invalidType (formatted : String)
  | notNumeric (value : PyVal)
  | notAnInteger (value : PyVal)
  | notAFloat (value : PyVal)
  | notAString (value : PyVal)
  | notAList (value : PyVal)
  | invalidRange (value : PyVal)
  | notABoolean (value : PyVal)
  | invalidTimestamp (value : PyVal) (msg : String)
  | invalidVersion (what : Option String)

/-- `isinstance(value, numbers.Number)`: Python registers `int`, `float` and
`bool` (a subclass of `int`) under `numbers.Number`. -/
def isNumber : PyVal → Bool
  | .int _ => true
  | .float _ => true
  | .bool _ => true
  | _ => false

/-- `isinstance(value, int)`: true for `int` and for `bool` (a subclass). -/
def isInstInt : PyVal → Bool
  | .int _ => true
  | .bool _ => true
  | _ => false

/-- Truncation toward zero, the behaviour of Python's `int()` on a float. -/
def ratTruncTowardZero (q : ℚ) : Int :=
  if q < 0 then ⌈q⌉ else ⌊q⌋

/-- Digits of a decimal literal folded into a natural number. -/
def digitsToNat (ds : List Char) : Nat :=
  ds.foldl (fun a c => a * 10 + (c.toNat - 48)) 0

/-- `int(s)` on a Python string: optional surrounding spaces, an optional sign,
then a nonempty digit sequence; anything else raises `ValueError`.  (Python also
allows other unicode whitespace and `_` digit separators; those corners are not
exercised by the spec or the claims.) -/
def parseIntStr (s : String) : Option Int :=
  let cs := ((s.toList.dropWhile (· = ' ')).reverse.dropWhile (· = ' ')).reverse
  match cs with
  | '+' :: ds => if ds ≠ [] ∧ ds.all Char.isDigit then some (digitsToNat ds) else Option.none
  | '-' :: ds => if ds ≠ [] ∧ ds.all Char.isDigit then some (-(digitsToNat ds : Int)) else Option.none
  | ds => if ds ≠ [] ∧ ds.all Char.isDigit then some (digitsToNat ds) else Option.none

/-- Python's `int(value)` conversion: `some` is the converted integer, `none`
means the conversion raises (`ValueError`/`TypeError`, both caught by the bare
`except Exception` in `validate_integer`). -/
def pyIntConv : PyVal → Option Int
  | .int n => some n
  | .bool b => some (if b then 1 else 0)
  | .float q => some (ratTruncTowardZero q)
  | .str s => parseIntStr s
  | _ => Option.none

/-- `validate_numeric` (validateutils.py:43-47): appends when the value is not a
`numbers.Number`, and always returns the value. -/
def validate_numeric (value : PyVal) : List VError × PyVal :=
  if isNumber value then ([], value) else ([VError.notNumeric value], value)

/-- `validate_integer` (validateutils.py:50-57): returns the value unchanged for
`int` instances; otherwise tries `int(value)` — returning the coerced value on
success, and appending a diagnostic and returning the original value when the
conversion raises. -/
def validate_integer (value : PyVal) : List VError × PyVal :=
  if isInstInt value then ([], value)
  else
    match pyIntConv value with
    | some n => ([], PyVal.int n)
    | Option.none => ([VError.notAnInteger value], value)

/-- `validate_float` (validateutils.py:60-64). -/
def validate_float (value : PyVal) : List VError × PyVal :=
  match value with
  | .float _ => ([], value)
  | _ => ([VError.notAFloat value], value)

/-- `validate_string` (validateutils.py:67-71). -/
def validate_string (value : PyVal) : List VError × PyVal :=
  match value with
  | .str _ => ([], value)
  | _ => ([VError.notAString value], value)

/-- `validate_list` (validateutils.py:74-78). -/
def validate_list (value : PyVal) : List VError × PyVal :=
  match value with
  | .list _ => ([], value)
  | _ => ([VError.notAList value], value)

/-- Python's `str.lower()` (character-wise; the strings compared against are
ASCII). -/
def pyLower (s : String) : String := String.mk (s.toList.map Char.toLower)

/-- `validate_boolean` (validateutils.py:138-148): booleans are returned as is;
strings whose `lower()` is `"true"`/`"false"` are coerced; every other value
gets a diagnostic, after which the function falls off the end and returns
Python `None`. -/
def validate_boolean (value : PyVal) : List VError × PyVal :=
  match value with
  | .bool b => ([], .bool b)
  | .str s =>
      if pyLower s = "true" then ([], .bool true)
      else if pyLower s = "false" then ([], .bool false)
      else ([VError.notABoolean value], PyVal.none)
  | _ => ([VError.notABoolean value], PyVal.none)

/-- `validate_timestamp` (validateutils.py:151-164).  The external
`dateutil.parser.parse` is passed in as `parse` (`Except.error msg` models the
raised exception with `str(e) = msg`).  On failure a diagnostic carrying the
parser message is appended.  The Python function ends with a bare `return`, so
it returns `None` in every case. -/
def validate_timestamp (parse : PyVal → Except String Unit) (value : PyVal) :
    List VError × PyVal :=
  match parse value with
  | .ok _ => ([], PyVal.none)
  | .error msg => ([VError.invalidTimestamp value msg], PyVal.none)

/-- Python `==` restricted to the shapes the validators compare.  Numeric kinds
compare by value across `int`/`float`/`bool`; different non-numeric kinds
compare unequal.  Container-vs-container equality (element-wise in Python) is
left at `false`: the modelled code compares values only against the string
sentinel `"UNBOUNDED"`, so those cases are never reached. -/
def pyEq (a b : PyVal) : Bool :=
  match a, b with
  | .int x, .int y => x = y
  | .float x, .float y => x = y
  | .bool x, .bool y => x = y
  | .int x, .float y => (x : ℚ) = y
  | .float x, .int y => x = (y : ℚ)
  | .bool x, .int y => (if x then (1 : Int) else 0) = y
  | .int x, .bool y => x = (if y then (1 : Int) else 0)
  | .bool x, .float y => (if x then (1 : ℚ) else 0) = y
  | .float x, .bool y => x = (if y then (1 : ℚ) else 0)
  | .str x, .str y => x = y
  | .none, .none => true
  | _, _ => false

/-- `len(value)`: defined for sequences and mappings, `TypeError` otherwise. -/
def pyLen : PyVal → Except PyExn Nat
  | .list xs => .ok xs.length
  | .str s => .ok s.length
  | .dict es => .ok es.length
  | _ => .error .typeError

/-- `value[i]` for a non-negative literal index: `IndexError` past the end of a
list, `TypeError` for non-indexable values (only lists are indexed here). -/
def pyIndex : PyVal → Nat → Except PyExn PyVal
  | .list xs, i =>
      match xs.get? i with
      | some v => .ok v
      | Option.none => .error .indexError
  | _, _ => .error .typeError

/-- Python `a > b` for the kinds `validate_range` can compare: numeric kinds by
value, strings lexicographically; other combinations raise `TypeError`.
(Python also orders lists element-wise; no claim exercises that case.) -/
def pyGt : PyVal → PyVal → Except PyExn Bool
  | .int a, .int b => .ok (b < a)
  | .int a, .float b => .ok (b < (a : ℚ))
  | .float a, .int b => .ok ((b : ℚ) < a)
  | .float a, .float b => .ok (b < a)
  | .bool a, .int b => .ok (b < (if a then (1 : Int) else 0))
  | .int a, .bool b => .ok ((if b then (1 : Int) else 0) < a)
  | .bool a, .bool b => .ok ((if b then (1 : Int) else 0) < (if a then (1 : Int) else 0))
  | .bool a, .float b => .ok (b < (if a then (1 : ℚ) else 0))
  | .float a, .bool b => .ok ((if b then (1 : ℚ) else 0) < a)
  | .str a, .str b => .ok (b < a)
  | _, _ => .error .typeError

/-- `RANGE_UNBOUNDED` (validateutils.py:29). -/
def RANGE_UNBOUNDED : PyVal := PyVal.str "UNBOUNDED"

/-- `validate_range` (validateutils.py:81-105), translated statement by
statement.  The error list collects every `appendException`; the `Except`
component is `.error` when an uncaught exception escapes (e.g. `range[1]` on a
one-element list) and `.ok range` when the function returns. -/
def validate_range (range : PyVal) : List VError × Except PyExn PyVal :=
  let e0 := (validate_list range).1
  match pyLen range with
  | .error exn => (e0, .error exn)
  | .ok len =>
    let e1 := e0 ++ (if len ≠ 2 then [VError.invalidRange range] else [])
    match pyIndex range 0 with
    | .error exn => (e1, .error exn)
    | .ok r0 =>
      let minUnbounded := pyEq r0 RANGE_UNBOUNDED
      let e2 := e1 ++ (if minUnbounded then [] else (validate_numeric r0).1)
      match pyIndex range 1 with
      | .error exn => (e2, .error exn)
      | .ok r1 =>
        let maxUnbounded := pyEq r1 RANGE_UNBOUNDED
        let e3 := e2 ++ (if maxUnbounded then [] else (validate_numeric r1).1)
        if minUnbounded || maxUnbounded then (e3, .ok range)
        else
          match pyGt r0 r1 with
          | .error exn => (e3, .error exn)
          | .ok gt => (e3 ++ (if gt then [VError.invalidRange range] else []), .ok range)

/-! ## TOSCAVersionProperty (validateutils.py:192-262)

`VERSION_RE` is the Python regex

    ^(?P<major_version>([0-9][0-9]*))
     (\.(?P<minor_version>([0-9][0-9]*)))?
     (\.(?P<fix_version>([0-9][0-9]*)))?
     (\.(?P<qualifier>([0-9A-Za-z]+)))?
     (\-(?P<build_version>[0-9])*)?$

It is hand-compiled below into a backtracking matcher with Python's
leftmost/greedy preference order: each quantified piece enumerates its
alternatives longest-first, each optional group tries to match before being
skipped, and the first full match (checked against `$`, which in Python matches
at the end of the string or just before one trailing newline) determines the
captured groups.  Note that the build group `(?P<build_version>[0-9])*` puts
the `*` outside a single-digit group, so after `-` it consumes any number of
digits but captures only the last one. -/

/-- `[0-9A-Za-z]` (both `Char.isDigit` and `Char.isAlpha` are the ASCII
classes, matching the regex's explicit ranges). -/
def isAlnum (c : Char) : Bool := c.isDigit || c.isAlpha

/-- All ways a greedy `cls`-class plus (`[c][c]*`) can split off a nonempty
leading run, longest first: `(matched, rest)` pairs. -/
def charSeqSplits (cls : Char → Bool) (s : List Char) : List (List Char × List Char) :=
  let n := (s.takeWhile cls).length
  (List.range n).map (fun i => (s.take (n - i), s.drop (n - i)))

/-- Alternatives of an optional group `(\.(X))?` with `X` a `cls`-class plus:
the group's alternatives (greedy) followed by skipping the group.  The first
component is the captured group (Python `None` when skipped). -/
def dotComponent (cls : Char → Bool) (s : List Char) :
    List (Option (List Char) × List Char) :=
  (match s with
   | c :: rest => if c = '.' then (charSeqSplits cls rest).map (fun pr => (some pr.1, pr.2)) else []
   | [] => []) ++ [(Option.none, s)]

/-- Alternatives of `(\-(?P<build_version>[0-9])*)?`: after `-`, the starred
single-digit group consumes `k` digits greedily (`k` from the length of the
leading digit run down to `0`) and captures the last digit consumed (`None`
when it consumed none); finally the whole group can be skipped. -/
def buildComponent (s : List Char) : List (Option (List Char) × List Char) :=
  (match s with
   | c :: rest =>
      if c = '-' then
        let n := (rest.takeWhile Char.isDigit).length
        (List.range (n + 1)).map (fun i =>
          (((rest.take (n - i)).getLast?).map (fun ch => [ch]), rest.drop (n - i)))
      else []
   | [] => []) ++ [(Option.none, s)]

/-- The capture groups of `VERSION_RE` (`match.groupdict()`). -/
structure VGroups where
  major_version : String
  minor_version : Option String
  fix_version : Option String
  qualifier : Option String
  build_version : Option String
deriving DecidableEq

/-- `$` in Python `re`: end of string, or just before one trailing newline. -/
def atDollar (r : List Char) : Bool := r = [] || r = ['\n']

/-- `VERSION_RE.match(s)`: `some` of the captured groups on a match, `none`
otherwise.  The nested `findSome?` explores alternatives in exactly the
backtracking order described above, so the first success fixes the captures. -/
def VERSION_RE_match (s : String) : Option VGroups :=
  (charSeqSplits Char.isDigit s.toList).findSome? fun mj =>
    (dotComponent Char.isDigit mj.2).findSome? fun mi =>
      (dotComponent Char.isDigit mi.2).findSome? fun fx =>
        (dotComponent isAlnum fx.2).findSome? fun q =>
          (buildComponent q.2).findSome? fun b =>
            if atDollar b.2 then
              some ⟨String.mk mj.1, mi.1.map String.mk, fx.1.map String.mk,
                    q.1.map String.mk, b.1.map String.mk⟩
            else Option.none

/-- Python truthiness of an optional string field (`None` and `''` are falsy). -/
def truthyOptStr : Option String → Bool
  | some s => s ≠ ""
  | Option.none => false

/-- The state of a `TOSCAVersionProperty` object after `__init__` returns:
`version` is `self.version` (`Option` because the all-zero normalization sets
it to Python `None`), `matched` records whether the regex matched (when it did
not, the sub-fields are never assigned), and `errors` is the sequence of
`InvalidTOSCAVersionPropertyException` records appended to the collector. -/
structure TVP where
  version : Option String
  matched : Bool
  major_version : Option String
  minor_version : Option String
  fix_version : Option String
  qualifier : Option String
  build_version : Option String
  errors : List VError

/-- `TOSCAVersionProperty.__init__` (validateutils.py:200-216) together with
the three `_validate_*` helpers it calls (lines 218-259), translated in
execution order:

1. no regex match → append `InvalidVersion`, return with sub-fields unset;
2. `self.version in ['0', '0.0', '0.0.0']` → `self.version = None`;
3. `_validate_qualifier`: qualifier truthy with `fix_version is None`, or with
   `minor_version == major_version == fix_version == '0'` (Python chained
   comparison) → append `InvalidVersion` (the `what` is `self.version` at this
   moment, i.e. after step 2);
4. `_validate_build`: build truthy while qualifier falsy → append;
5. `_validate_major_version`: `minor_version is None and build_version is None
   and major != '0'` → `self.version = major + '.0'`. -/
def TOSCAVersionProperty.init (version : String) : TVP :=
  match VERSION_RE_match version with
  | Option.none =>
      ⟨some version, false, Option.none, Option.none, Option.none, Option.none, Option.none,
       [VError.invalidVersion (some version)]⟩
  | some g =>
      let v0 : Option String :=
        if version = "0" ∨ version = "0.0" ∨ version = "0.0.0" then Option.none else some version
      let qualErr : List VError :=
        if (g.fix_version = Option.none ∧ truthyOptStr g.qualifier) ∨
           (g.minor_version = some g.major_version ∧ g.fix_version = some g.major_version ∧
            g.fix_version = some "0" ∧ truthyOptStr g.qualifier)
        then [VError.invalidVersion v0] else []
      let buildErr : List VError :=
        if ¬ truthyOptStr g.qualifier ∧ truthyOptStr g.build_version
        then [VError.invalidVersion v0] else []
      let v1 : Option String :=
        if g.minor_version = Option.none ∧ g.build_version = Option.none ∧
           g.major_version ≠ "0"
        then some (g.major_version ++ ".0") else v0
      ⟨v1, true, some g.major_version, g.minor_version, g.fix_version, g.qualifier,
       g.build_version, qualErr ++ buildErr⟩

/-- `get_version` (validateutils.py:261-262). -/
def TVP.get_version (t : TVP) : Option String := t.version

/-! ## Input and Output (parameters.py)

`Input.__init__` wraps its raw mapping in a `Schema` object
(`toscaparser.elements.constraints.Schema`, not part of the excerpted sources).
Following the spec, a `Schema` simply holds the raw mapping and exposes the
value at key `"type"` as the declared type tag, and `Schema.PROPERTY_TYPES`
is "a fixed set of recognized primitive/complex type tags"; the concrete tag
set is therefore a parameter below. -/

/-- `Input.INPUTFIELD` (parameters.py:31-35). -/
def INPUTFIELD : List String :=
  ["type", "description", "default", "constraints", "required", "status",
   "entry_schema", "title", "hint", "uitype", "ui"]

/-- Modelled from the spec: the external `Schema` wrapper stores the raw schema
mapping unchanged (`self.schema.schema` iterates its keys in insertion order)
and `Schema.type` is the metadata value at the `"type"` key. -/
def Schema.typeTag (schema_dict : List (String × PyVal)) : PyVal :=
  (schema_dict.lookup "type").getD PyVal.none

/-- Python `x in tuple_of_strings` for the declared type tag: only an equal
string is a member. -/
def pyMemStr (v : PyVal) (ts : List String) : Bool :=
  match v with
  | .str s => ts.contains s
  | _ => false

/-- The constant `'%s' % type` — the Python code formats the *builtin* `type`
(a slip for the `input_type` parameter), so the message argument is the fixed
`repr` of the builtin, `<class 'type'>`, for every input. -/
def pyBuiltinTypeRepr : String := "<class \x27type\x27>"

/-- `Input._validate_field` (parameters.py:97-102): one `UnknownFieldError`
per schema key outside `INPUTFIELD`, in iteration order, with
`what = 'Input "%s"' % self.name`. -/
def Input.validate_field (name : String) (schema_dict : List (String × PyVal)) :
    List VError :=
  (schema_dict.map Prod.fst).filterMap fun k =>
    if INPUTFIELD.contains k then Option.none
    else some (VError.unknownField ("Input \x22" ++ name ++ "\x22") k)

/-- `Input.validate_type` (parameters.py:104-107): if the declared tag is not
in `Schema.PROPERTY_TYPES`, append `ValueError('Invalid type "%s".' % type)` —
note the formatted argument is the builtin `type`, not the tag. -/
def Input.validate_type (propertyTypes : List String) (input_type : PyVal) :
    List VError :=
  if pyMemStr input_type propertyTypes then []
  else [VError.invalidType pyBuiltinTypeRepr]

/-- `Input.__init__` (parameters.py:37-42): `_validate_field` then
`validate_type(self.type)`, both appending to the collector; the result is the
sequence of appended records. -/
def Input.init (name : String) (schema_dict : List (String × PyVal))
    (propertyTypes : List String) : List VError :=
  Input.validate_field name schema_dict ++
    Input.validate_type propertyTypes (Schema.typeTag schema_dict)

/-- `Output.OUTPUTFIELD` (parameters.py:126-127). -/
def OUTPUTFIELD : List String :=
  ["description", "value", "default", "hidden", "type", "required",
   "constraints", "uitype"]

/-- `what = 'Output "%s"' % self.name`. -/
def outputWhat (name : String) : String := "Output \x22" ++ name ++ "\x22"

/-- `Output._validate_field` (parameters.py:185-198), translated statement by
statement.  `self.value` is `self.attrs.get('value')`, which raises
`AttributeError` when `attrs` is not a mapping — so for a non-dict `attrs` the
first `MissingRequiredFieldError` is appended and the method then crashes
before the second check and the unknown-field loop.  For a dict, a missing or
`None`-valued `"value"` key appends the second record, and then each key
outside `OUTPUTFIELD` appends an `UnknownFieldError`. -/
def Output.validate_field (name : String) (attrs : PyVal) :
    List VError × Option PyExn :=
  let e1 : List VError :=
    match attrs with
    | .dict _ => []
    | _ => [VError.missingRequiredField (outputWhat name) "value"]
  match attrs with
  | .dict es =>
      let value := (es.lookup "value").getD PyVal.none
      let e2 : List VError :=
        match value with
        | .none => [VError.missingRequiredField (outputWhat name) "value"]
        | _ => []
      let e3 : List VError :=
        (es.map Prod.fst).filterMap fun k =>
          if OUTPUTFIELD.contains k then Option.none
          else some (VError.unknownField (outputWhat name) k)
      (e1 ++ e2 ++ e3, Option.none)
  | _ => (e1, some PyExn.attributeError)

/-! ## Content fingerprint (hashutils.py)

The file system is a finite tree; file contents are byte lists.  SHA-256 is
modelled by an arbitrary function `H : List Nat → Nat` over which every
theorem is universally quantified: a digest is abstracted to a natural number
(fixed-width digests compare lexicographically exactly as the numbers they
encode, so Python's `sorted` over digest byte strings is `List.insertionSort`
over the numbers, and the final combining hash over the concatenation of the
fixed-width digests is `H` of the list of digest numbers).  A fresh
`hashlib.sha256()` accumulates `update`d blocks and digests the accumulated
bytes, i.e. `H` applied to the concatenation of the blocks. -/

/-- A directory tree: files carry byte contents, directories carry named
entries. -/
inductive FSTree where
  | file (content : List Nat)
  | dir (entries : List (String × FSTree))

/-- Resolve a path (list of components) in a tree. -/
def FSTree.resolve : FSTree → List String → Option FSTree
  | t, [] => some t
  | .dir es, n :: rest =>
      match es.lookup n with
      | some t => t.resolve rest
      | Option.none => Option.none
  | .file _, _ :: _ => Option.none

/-- `open(path, 'rb').read()`: the bytes of the file at `path`; `none` models
the raised `OSError` when the path is missing or a directory. -/
def readFile (fs : FSTree) (p : List String) : Option (List Nat) :=
  match fs.resolve p with
  | some (.file c) => some c
  | _ => Option.none

/-- `file_as_blockiter` (hashutils.py:23-28) with the default 65536-byte block
size: the file's bytes cut into nonempty blocks. -/
def file_as_blockiter (afile : List Nat) : List (List Nat) :=
  match afile with
  | [] => []
  | a :: rest => ((a :: rest).take 65536) :: file_as_blockiter ((a :: rest).drop 65536)
termination_by afile.length
decreasing_by
  simp [List.length_drop]
  omega

/-- `hash_bytestr_iter` (hashutils.py:17-20): update a fresh hasher with every
block and take the digest — `H` of the concatenated blocks. -/
def hash_bytestr_iter (H : List Nat → Nat) (bytesiter : List (List Nat)) : Nat :=
  H bytesiter.flatten

/-- The per-file digest `hash_bytestr_iter(file_as_blockiter(open(p, 'rb')),
hashlib.sha256())`. -/
def fileHash (H : List Nat → Nat) (content : List Nat) : Nat :=
  hash_bytestr_iter H (file_as_blockiter content)

/-- Lexicographic code-point comparison of names (Python compares strings by
code point). -/
def charListLt : List Char → List Char → Bool
  | [], [] => false
  | [], _ :: _ => true
  | _ :: _, [] => false
  | a :: as, b :: bs => if a < b then true else if b < a then false else charListLt as bs

/-- `a <= b` on names, by code point. -/
def strLeB (a b : String) : Bool := ! charListLt b.toList a.toList

/-- Sort entries by name — `dirs.sort()` / `files.sort()` (`os.walk` hands out
names; entry names in a directory are distinct, so any comparison sort agrees
with Python's). -/
def sortEntries (es : List (String × FSTree)) : List (String × FSTree) :=
  List.insertionSort (fun a b => strLeB a.1 b.1 = true) es

/-- The file contents visited by `os.walk(top, topdown=True)` with
`dirs.sort(); files.sort()` at every level and the files of each directory
hashed before its subdirectories are entered (hashutils.py:53-64): the current
directory's files in name order, then each subdirectory's walk in name order.
(`os.walk` on a missing path or a plain file yields nothing.)  Recursing
through every sorted entry is harmless for files: a `.file` node contributes
`[]`. -/
def walkFiles (t : FSTree) : List (List Nat) :=
  match t with
  | .file _ => []
  | .dir es =>
      ((sortEntries es).filterMap fun e =>
        match e.2 with
        | .file c => some c
        | .dir _ => Option.none) ++
      (((sortEntries es).attach.map fun e => walkFiles e.1.2).flatten)
termination_by sizeOf t
decreasing_by
  obtain ⟨⟨n, sub⟩, hm⟩ := e
  simp only [sortEntries] at hm
  have hmem :=
    (List.perm_insertionSort
      (fun a b : String × FSTree => strLeB a.1 b.1 = true) _).mem_iff.mp hm
  have h1 := List.sizeOf_lt_of_mem hmem
  simp at h1 ⊢
  omega

/-- The contents seen by walking `import_dirs` as a directory. -/
def walkContents (fs : FSTree) (p : List String) : List (List Nat) :=
  match fs.resolve p with
  | some t => walkFiles t
  | Option.none => []

/-- The `for _f_name in import_dirs` loop of the set branch
(hashutils.py:42-51): hash each named file resolved against the template's
directory (`os.path.normpath(os.path.join(template_dir, _f_name))`; names are
modelled as relative paths, `normpath` being the identity on them), in the
set's iteration order; a missing file raises (`none`). -/
def hashNamed (H : List Nat → Nat) (fs : FSTree) (template_dir : List String) :
    List (List String) → Option (List Nat)
  | [] => some []
  | n :: rest =>
      match readFile fs (template_dir ++ n) with
      | some c => (hashNamed H fs template_dir rest).map (fun hs => fileHash H c :: hs)
      | Option.none => Option.none

/-- The two shapes of `import_dirs`: a `set` of relative file names (carried
with its Python iteration order) or a directory path to walk. -/
inductive ImportDirs where
  | fset (names : List (List String))
  | dirs (path : List String)

/-- `hash_all` (hashutils.py:31-68): hash the template file, then every
associated file (set branch or directory walk), sort the per-file digests and
hash their concatenation.  `none` models an uncaught `OSError` from `open`. -/
def hash_all (H : List Nat → Nat) (fs : FSTree) (template_path : List String)
    (import_dirs : ImportDirs) : Option Nat :=
  match readFile fs template_path with
  | Option.none => Option.none
  | some rootContent =>
      let template_dir := template_path.dropLast
      let rest? : Option (List Nat) :=
        match import_dirs with
        | .fset names => hashNamed H fs template_dir names
        | .dirs p => some ((walkContents fs p).map (fileHash H))
      match rest? with
      | Option.none => Option.none
      | some rest =>
          some (H (List.insertionSort (· ≤ ·) (fileHash H rootContent :: rest)))

/-! ## Spec-side grammar definitions for the syntax claim

Two definitions written from the specification's words, to be compared with
`VERSION_RE_match`: `claimGrammar` is the claimed nested grammar
`major[.minor[.fix[.qualifier]]][-build]` with `build` a *nonempty* digit
sequence, and `regexLang` describes the language the regex actually accepts
(each dotted component independently optional, the build digit sequence
possibly empty, and one trailing newline tolerated by `$`). -/

/-- A nonempty digit sequence. -/
def isDigitSeqB (p : List Char) : Bool := (decide (p ≠ [])) && p.all Char.isDigit

/-- A nonempty alphanumeric sequence. -/
def isAlnumSeqB (p : List Char) : Bool := (decide (p ≠ [])) && p.all isAlnum

/-- Every split of a list into a front and a back part. -/
def allSplits (s : List Char) : List (List Char × List Char) :=
  (List.range (s.length + 1)).map (fun k => (s.take k, s.drop k))

/-- Modelled from the spec claim: the tail `[.qualifier]` of the nested core. -/
def claimAfterFix (r : List Char) : Bool :=
  match r with
  | c :: t => c = '.' && isAlnumSeqB t
  | [] => false

/-- Modelled from the spec claim: the tail `[.fix[.qualifier]]`. -/
def claimAfterMinor (r : List Char) : Bool :=
  match r with
  | c :: t =>
      c = '.' && (allSplits t).any (fun pr => isDigitSeqB pr.1 && (pr.2.isEmpty || claimAfterFix pr.2))
  | [] => false

/-- Modelled from the spec claim: the tail `[.minor[.fix[.qualifier]]]`. -/
def claimAfterMajor (r : List Char) : Bool :=
  match r with
  | c :: t =>
      c = '.' && (allSplits t).any (fun pr => isDigitSeqB pr.1 && (pr.2.isEmpty || claimAfterMinor pr.2))
  | [] => false

/-- Modelled from the spec claim: the core `major[.minor[.fix[.qualifier]]]`. -/
def claimCore (cs : List Char) : Bool :=
  (allSplits cs).any (fun pr => isDigitSeqB pr.1 && (pr.2.isEmpty || claimAfterMajor pr.2))

/-- Modelled from the spec claim: `-build` with `build` a digit sequence (the
claim states a trailing `-` with no digits is not a valid build). -/
def claimBuild (r : List Char) : Bool :=
  match r with
  | c :: t => c = '-' && isDigitSeqB t
  | [] => false

/-- Modelled from the spec claim (C2): whether a string matches the grammar
`major[.minor[.fix[.qualifier]]][-build]` where major/minor/fix/build are
digit sequences and qualifier is alphanumeric. -/
def claimGrammar (s : String) : Bool :=
  (allSplits s.toList).any (fun pr => claimCore pr.1 && (pr.2.isEmpty || claimBuild pr.2))

/-- The characters contributed by an optional dotted component. -/
def dotPart (o : Option (List Char)) : List Char :=
  match o with
  | some p => '.' :: p
  | Option.none => []

/-- The characters contributed by the optional `-` + digits part. -/
def dashPart (o : Option (List Char)) : List Char :=
  match o with
  | some d => '-' :: d
  | Option.none => []

/-- A condition on an optional component (`True` when absent). -/
def OptIs (P : List Char → Prop) : Option (List Char) → Prop
  | some p => P p
  | Option.none => True

/-- A nonempty run of `cls` characters. -/
def ClsSeq (cls : Char → Bool) (p : List Char) : Prop :=
  p ≠ [] ∧ p.all cls = true

/-- The language accepted by `VERSION_RE` (for the amended claim): a digit-run
major, then independently optional `.digits`, `.digits`, `.alphanumerics`,
then an optional `-` followed by any (possibly zero) number of digits, then an
optional trailing newline (Python `$`). -/
def regexLang (s : String) : Prop :=
  ∃ (mj : List Char) (mi fx q bd : Option (List Char)) (nl : List Char),
    s.toList = mj ++ dotPart mi ++ dotPart fx ++ dotPart q ++ dashPart bd ++ nl ∧
    ClsSeq Char.isDigit mj ∧ OptIs (ClsSeq Char.isDigit) mi ∧
    OptIs (ClsSeq Char.isDigit) fx ∧ OptIs (ClsSeq isAlnum) q ∧
    OptIs (fun d => d.all Char.isDigit = true) bd ∧ (nl = [] ∨ nl = ['\n'])

/-! ## Auxiliary definitions used by the theorem statements -/

/-- Whether an error record is an `InvalidTOSCAVersionPropertyException`. -/
def VError.isInvalidVersion : VError → Bool
  | .invalidVersion _ => true
  | _ => false

/-- Whether an `InvalidVersion` diagnostic was appended. -/
def hasInvalidVersion (l : List VError) : Bool := l.any VError.isInvalidVersion

/-- `isinstance(x, dict)`. -/
def PyVal.isDict : PyVal → Bool
  | .dict _ => true
  | _ => false

/-- The contents of the named associated files in iteration order (used to
state how the set branch of `hash_all` relates to the directory branch). -/
def resolveAll (fs : FSTree) (template_dir : List String) :
    List (List String) → Option (List (List Nat))
  | [] => some []
  | n :: rest =>
      match readFile fs (template_dir ++ n) with
      | some c => (resolveAll fs template_dir rest).map (fun cs => c :: cs)
      | Option.none => Option.none

/-- Lifts `List.Perm` to the optional digest lists produced by `hashNamed`. -/
def OptPerm : Option (List Nat) → Option (List Nat) → Prop
  | some a, some b => a.Perm b
  | Option.none, Option.none => True
  | _, _ => False

/-- A concrete stand-in hash for the closed witness statements (the hashing
theorems are universally quantified over the hash function). -/
def wHash : List Nat → Nat := fun l => l.foldl (fun a b => a * 257 + (b + 1)) 1

/-- A small concrete file system for the closed witness statements. -/
def wFS : FSTree :=
  .dir [("root.yaml", .file [1, 2]),
        ("a.yaml", .file [3]),
        ("b.yaml", .file [4, 5]),
        ("incl", .dir [("a.yaml", .file [3]), ("b.yaml", .file [4, 5])])]

/-! ## Theorems -/

/-- C10: `validate_integer` silently accepts any value `int()` can convert —
every float with a fractional part is returned truncated toward zero with no
diagnostic recorded — and when the conversion raises, the diagnostic is
recorded and the original input value is returned unchanged. -/
theorem validate_integer_truncates_and_keeps_original_on_failure :
    (∀ q : ℚ, q.den ≠ 1 →
        validate_integer (PyVal.float q) = ([], PyVal.int (ratTruncTowardZero q))) ∧
    (∀ v : PyVal, pyIntConv v = Option.none →
        validate_integer v = ([VError.notAnInteger v], v)) := by
  constructor
  · intro q _
    simp [validate_integer, isInstInt, pyIntConv]
  · intro v hv
    cases v <;> simp_all [validate_integer, isInstInt, pyIntConv]

/-- Witness for C10 at `3.7` and at a non-convertible string. -/
theorem validate_integer_truncates_and_keeps_original_on_failure_witness :
    ((37 : ℚ) / 10).den ≠ 1 ∧
    validate_integer (PyVal.float ((37 : ℚ) / 10)) =
      ([], PyVal.int (ratTruncTowardZero ((37 : ℚ) / 10))) ∧
    ratTruncTowardZero ((37 : ℚ) / 10) = 3 ∧
    pyIntConv (PyVal.str "abc") = Option.none ∧
    validate_integer (PyVal.str "abc") =
      ([VError.notAnInteger (PyVal.str "abc")], PyVal.str "abc") :=
  ⟨by norm_num,
   validate_integer_truncates_and_keeps_original_on_failure.1 ((37 : ℚ) / 10) (by norm_num),
   by norm_num [ratTruncTowardZero],
   rfl,
   validate_integer_truncates_and_keeps_original_on_failure.2 (PyVal.str "abc") rfl⟩

/-- C5 counterexample: with a parser that accepts the value (as
`dateutil.parser.parse` does for `"2021-01-01"`), `validate_timestamp` returns
Python `None`, not the validated value — refuting "for every value that parses
as a valid calendar timestamp, validate_timestamp(value) returns that value". -/
theorem validate_timestamp_returns_none_not_value :
    validate_timestamp (fun _ => .ok ()) (PyVal.str "2021-01-01") = ([], PyVal.none) ∧
    PyVal.none ≠ PyVal.str "2021-01-01" :=
  ⟨rfl, by simp⟩

/-- C5 (amended): the primitive validators return the value, possibly coerced
(`validate_boolean` coerces case-insensitive `"true"`/`"false"` strings), or
record a diagnostic — except `validate_timestamp`, which always returns `None`:
it records nothing when the value parses and records `InvalidTimestamp`
carrying the underlying parser message when it does not. -/
theorem validate_timestamp_and_boolean_contract :
    (∀ (parse : PyVal → Except String Unit) (v : PyVal),
        parse v = .ok () → validate_timestamp parse v = ([], PyVal.none)) ∧
    (∀ (parse : PyVal → Except String Unit) (v : PyVal) (msg : String),
        parse v = .error msg →
        validate_timestamp parse v = ([VError.invalidTimestamp v msg], PyVal.none)) ∧
    (∀ b : Bool, validate_boolean (PyVal.bool b) = ([], PyVal.bool b)) ∧
    (∀ s : String, pyLower s = "true" → validate_boolean (PyVal.str s) = ([], PyVal.bool true)) ∧
    (∀ s : String, pyLower s = "false" → validate_boolean (PyVal.str s) = ([], PyVal.bool false)) := by
  refine ⟨?_, ?_, ?_, ?_, ?_⟩
  · intro parse v h; simp [validate_timestamp, h]
  · intro parse v msg h; simp [validate_timestamp, h]
  · intro b; rfl
  · intro s h; simp [validate_boolean, h]
  · intro s h; simp [validate_boolean, h]

/-- Witness for the amended C5 at concrete parsers, values and strings. -/
theorem validate_timestamp_and_boolean_contract_witness :
    validate_timestamp (fun _ => .ok ()) (PyVal.str "2021-01-01T00:00:00") = ([], PyVal.none) ∧
    validate_timestamp (fun _ => .error "Unknown string format")
        (PyVal.str "not a date") =
      ([VError.invalidTimestamp (PyVal.str "not a date") "Unknown string format"],
       PyVal.none) ∧
    validate_boolean (PyVal.bool true) = ([], PyVal.bool true) ∧
    validate_boolean (PyVal.str "TRUE") = ([], PyVal.bool true) ∧
    validate_boolean (PyVal.str "False") = ([], PyVal.bool false) :=
  ⟨validate_timestamp_and_boolean_contract.1 (fun _ => .ok ())
      (PyVal.str "2021-01-01T00:00:00") rfl,
   validate_timestamp_and_boolean_contract.2.1 (fun _ => .error "Unknown string format")
      (PyVal.str "not a date") "Unknown string format" rfl,
   validate_timestamp_and_boolean_contract.2.2.1 true,
   validate_timestamp_and_boolean_contract.2.2.2.1 "TRUE" (by decide),
   validate_timestamp_and_boolean_contract.2.2.2.2 "False" (by decide)⟩

/-- C3: the literal strings "0", "0.0", "0.0.0" are normalized to "no version
specified" (`get_version` yields nothing); and for every input whose match has
a major version, no minor version, no build component and major ≠ "0", the
minor version is defaulted and `get_version` yields the rewritten canonical
string `major ++ ".0"`. -/
theorem tosca_version_zero_normalization_and_minor_defaulting :
    ((TOSCAVersionProperty.init "0").get_version = Option.none ∧
     (TOSCAVersionProperty.init "0.0").get_version = Option.none ∧
     (TOSCAVersionProperty.init "0.0.0").get_version = Option.none) ∧
    (∀ (s : String) (g : VGroups), VERSION_RE_match s = some g →
        g.minor_version = Option.none → g.build_version = Option.none →
        g.major_version ≠ "0" →
        (TOSCAVersionProperty.init s).get_version = some (g.major_version ++ ".0")) := by
  refine ⟨⟨by decide, by decide, by decide⟩, ?_⟩
  intro s g hm hmi hb hmaj
  simp [TOSCAVersionProperty.init, hm, TVP.get_version, hmi, hb, hmaj]

/-- Witness for C3 at `"18"`. -/
theorem tosca_version_zero_normalization_and_minor_defaulting_witness :
    VERSION_RE_match "18" =
      some ⟨"18", Option.none, Option.none, Option.none, Option.none⟩ ∧
    (TOSCAVersionProperty.init "18").get_version = some ("18" ++ ".0") :=
  ⟨by decide,
   tosca_version_zero_normalization_and_minor_defaulting.2 "18"
     ⟨"18", Option.none, Option.none, Option.none, Option.none⟩
     (by decide) rfl rfl (by decide)⟩

/-- C4: `TOSCAVersionProperty` cross-field rules — a (truthy) qualifier with no
fix component, or a qualifier with major = minor = fix = "0", yields an
`InvalidVersion` diagnostic; a (truthy) build component with no truthy
qualifier yields an `InvalidVersion` diagnostic; and `"1.0.0.rc1-1"` yields no
diagnostic at all. -/
theorem tosca_version_cross_field_rules :
    (∀ (s : String) (g : VGroups), VERSION_RE_match s = some g →
        g.fix_version = Option.none → truthyOptStr g.qualifier = true →
        hasInvalidVersion (TOSCAVersionProperty.init s).errors = true) ∧
    (∀ (s : String) (g : VGroups), VERSION_RE_match s = some g →
        g.major_version = "0" → g.minor_version = some "0" → g.fix_version = some "0" →
        truthyOptStr g.qualifier = true →
        hasInvalidVersion (TOSCAVersionProperty.init s).errors = true) ∧
    (∀ (s : String) (g : VGroups), VERSION_RE_match s = some g →
        truthyOptStr g.build_version = true → truthyOptStr g.qualifier = false →
        hasInvalidVersion (TOSCAVersionProperty.init s).errors = true) ∧
    (TOSCAVersionProperty.init "1.0.0.rc1-1").errors = [] := by
  refine ⟨?_, ?_, ?_, rfl⟩
  · intro s g hm hfix hq
    simp [TOSCAVersionProperty.init, hm, hfix, hq, hasInvalidVersion, VError.isInvalidVersion]
  · intro s g hm hmaj hmi hfix hq
    simp [TOSCAVersionProperty.init, hm, hmaj, hmi, hfix, hq, hasInvalidVersion,
      VError.isInvalidVersion]
  · intro s g hm hb hq
    simp [TOSCAVersionProperty.init, hm, hb, hq, hasInvalidVersion, VError.isInvalidVersion]

/-- Witness for C4 at `"1.0.rc1"`, `"0.0.0.rc1"` and `"1.0-1"`. -/
theorem tosca_version_cross_field_rules_witness :
    VERSION_RE_match "1.0.rc1" =
      some ⟨"1", some "0", Option.none, some "rc1", Option.none⟩ ∧
    hasInvalidVersion (TOSCAVersionProperty.init "1.0.rc1").errors = true ∧
    VERSION_RE_match "0.0.0.rc1" =
      some ⟨"0", some "0", some "0", some "rc1", Option.none⟩ ∧
    hasInvalidVersion (TOSCAVersionProperty.init "0.0.0.rc1").errors = true ∧
    VERSION_RE_match "1.0-1" =
      some ⟨"1", some "0", Option.none, Option.none, some "1"⟩ ∧
    hasInvalidVersion (TOSCAVersionProperty.init "1.0-1").errors = true :=
  ⟨by decide,
   tosca_version_cross_field_rules.1 "1.0.rc1"
     ⟨"1", some "0", Option.none, some "rc1", Option.none⟩ (by decide) rfl (by decide),
   by decide,
   tosca_version_cross_field_rules.2.1 "0.0.0.rc1"
     ⟨"0", some "0", some "0", some "rc1", Option.none⟩ (by decide) rfl rfl rfl (by decide),
   by decide,
   tosca_version_cross_field_rules.2.2.1 "1.0-1"
     ⟨"1", some "0", Option.none, Option.none, some "1"⟩ (by decide) (by decide) (by decide)⟩

/-- C6 counterexample: `validate_range([5])` appends the `InvalidRange`
diagnostic and then performs an out-of-bounds access — `range[1]` raises
`IndexError` — so the range is not returned, refuting "records an InvalidRange
diagnostic and returns the range (with no out-of-bounds access)". -/
theorem validate_range_short_list_out_of_bounds :
    validate_range (PyVal.list [PyVal.int 5]) =
      ([VError.invalidRange (PyVal.list [PyVal.int 5])], .error PyExn.indexError) ∧
    (validate_range (PyVal.list [PyVal.int 5])).2 ≠
      Except.ok (PyVal.list [PyVal.int 5]) :=
  ⟨rfl, by simp [validate_range, pyLen, pyIndex, validate_list, validate_numeric, pyEq]⟩

/-- C6 (amended): for every list whose length is not 2 the call records an
`InvalidRange` diagnostic; when the list is shorter than 2 the subsequent
bound access raises `IndexError` (so the range is not returned), while longer
lists continue with the first two elements; `["UNBOUNDED", "UNBOUNDED"]` and
`[2, 2]` produce no diagnostic, and `[5, 2]` fails `InvalidRange` (while still
returning the range). -/
theorem validate_range_two_element_rule :
    (∀ xs : List PyVal, xs.length ≠ 2 →
        VError.invalidRange (PyVal.list xs) ∈ (validate_range (PyVal.list xs)).1) ∧
    (∀ xs : List PyVal, xs.length < 2 →
        (validate_range (PyVal.list xs)).2 = .error PyExn.indexError) ∧
    validate_range (PyVal.list [RANGE_UNBOUNDED, RANGE_UNBOUNDED]) =
      ([], .ok (PyVal.list [RANGE_UNBOUNDED, RANGE_UNBOUNDED])) ∧
    validate_range (PyVal.list [PyVal.int 2, PyVal.int 2]) =
      ([], .ok (PyVal.list [PyVal.int 2, PyVal.int 2])) ∧
    validate_range (PyVal.list [PyVal.int 5, PyVal.int 2]) =
      ([VError.invalidRange (PyVal.list [PyVal.int 5, PyVal.int 2])],
       .ok (PyVal.list [PyVal.int 5, PyVal.int 2])) := by
  refine ⟨?_, ?_, rfl, rfl, rfl⟩
  · intro xs h
    simp only [validate_range, validate_list, pyLen, pyIndex]
    simp only [h, if_true, ne_eq, not_false_iff]
    cases h0 : xs.get? 0 with
    | none => simp
    | some r0 =>
        cases h1 : xs.get? 1 with
        | none => simp
        | some r1 =>
            by_cases hmin : pyEq r0 RANGE_UNBOUNDED = true
            · by_cases hmax : pyEq r1 RANGE_UNBOUNDED = true
              · simp [hmin, hmax]
              · simp [hmin, hmax]
            · by_cases hmax : pyEq r1 RANGE_UNBOUNDED = true
              · simp [hmin, hmax]
              · cases hgt : pyGt r0 r1 with
                | error exn => simp [hmin, hmax, hgt]
                | ok gt => simp [hmin, hmax, hgt]
  · intro xs h
    match xs, h with
    | [], _ => rfl
    | [a], _ =>
        simp only [validate_range, validate_list, pyLen, pyIndex]
        simp

/-- Witness for the amended C6 at a three-element and a one-element list. -/
theorem validate_range_two_element_rule_witness :
    VError.invalidRange (PyVal.list [PyVal.int 1, PyVal.int 2, PyVal.int 3]) ∈
      (validate_range (PyVal.list [PyVal.int 1, PyVal.int 2, PyVal.int 3])).1 ∧
    (validate_range (PyVal.list [PyVal.int 5])).2 = .error PyExn.indexError :=
  ⟨validate_range_two_element_rule.1 [PyVal.int 1, PyVal.int 2, PyVal.int 3] (by decide),
   validate_range_two_element_rule.2.1 [PyVal.int 5] (by decide)⟩

/-- C7 (code bug): when the declared type tag is unrecognized, `Input`
construction appends exactly one diagnostic, but its formatted argument is the
constant `repr` of the Python builtin `type` — the code formats
`'Invalid type "%s".' % type` instead of `% input_type` — so the record is the
same for every offending tag and never names it.  The unknown-field check, by
contrast, names each offending key. -/
theorem input_invalid_type_diagnostic_never_names_tag :
    Input.init "in1" [("type", PyVal.str "bogus")] ["string", "integer"] =
      [VError.invalidType pyBuiltinTypeRepr] ∧
    (∀ tag : String, Input.init "in1" [("type", PyVal.str tag)] [] =
        [VError.invalidType pyBuiltinTypeRepr]) ∧
    pyBuiltinTypeRepr = "<class \x27type\x27>" ∧
    Input.init "in1" [("type", PyVal.str "string"), ("bogus", PyVal.int 1)]
        ["string", "integer"] =
      [VError.unknownField "Input \x22in1\x22" "bogus"] := by
  refine ⟨rfl, ?_, rfl, rfl⟩
  intro tag
  simp [Input.init, Input.validate_field, Input.validate_type, Schema.typeTag,
    pyMemStr, INPUTFIELD]

/-- C8 counterexample: validating an `Output` whose `attrs` is not a mapping
appends a single `MissingRequiredField` record and then crashes with
`AttributeError` when `self.value` evaluates `self.attrs.get('value')` — so no
second ("missing value in addition to structural") diagnostic is recorded. -/
theorem output_nonmapping_one_diagnostic_then_crash :
    Output.validate_field "out1" (PyVal.list [PyVal.str "x"]) =
      ([VError.missingRequiredField (outputWhat "out1") "value"],
       some PyExn.attributeError) ∧
    (Output.validate_field "out1" (PyVal.list [PyVal.str "x"])).1.length = 1 :=
  ⟨rfl, rfl⟩

/-- C8 (amended): for a mapping without a (non-`None`) `value` key, validation
records `MissingRequiredField("value")` (followed only by the unknown-field
records) and completes; for a non-mapping `attrs` it records one
`MissingRequiredField("value")` and then raises `AttributeError` reading the
`value` key, so the second check never fires; `Output("out1",
{description: "x"})` yields exactly the one diagnostic naming `value`. -/
theorem output_validate_field_missing_value :
    (∀ (name : String) (es : List (String × PyVal)),
        (es.lookup "value").getD PyVal.none = PyVal.none →
        Output.validate_field name (PyVal.dict es) =
          (VError.missingRequiredField (outputWhat name) "value" ::
             ((es.map Prod.fst).filterMap fun k =>
               if OUTPUTFIELD.contains k then Option.none
               else some (VError.unknownField (outputWhat name) k)),
           Option.none)) ∧
    (∀ (name : String) (attrs : PyVal), attrs.isDict = false →
        Output.validate_field name attrs =
          ([VError.missingRequiredField (outputWhat name) "value"],
           some PyExn.attributeError)) ∧
    Output.validate_field "out1" (PyVal.dict [("description", PyVal.str "x")]) =
      ([VError.missingRequiredField (outputWhat "out1") "value"], Option.none) := by
  refine ⟨?_, ?_, rfl⟩
  · intro name es h
    simp [Output.validate_field, h]
  · intro name attrs h
    cases attrs <;> simp_all [Output.validate_field, PyVal.isDict]

/-- Witness for the amended C8 at a value-less mapping and a list `attrs`. -/
theorem output_validate_field_missing_value_witness :
    Output.validate_field "out1" (PyVal.dict [("description", PyVal.str "x")]) =
      (VError.missingRequiredField (outputWhat "out1") "value" ::
         (([("description", PyVal.str "x")].map Prod.fst).filterMap fun k =>
           if OUTPUTFIELD.contains k then Option.none
           else some (VError.unknownField (outputWhat "out1") k)),
       Option.none) ∧
    Output.validate_field "out1" (PyVal.str "x") =
      ([VError.missingRequiredField (outputWhat "out1") "value"],
       some PyExn.attributeError) :=
  ⟨output_validate_field_missing_value.1 "out1" [("description", PyVal.str "x")] rfl,
   output_validate_field_missing_value.2.1 "out1" (PyVal.str "x") rfl⟩

/-- Sorting with `(· ≤ ·)` on `Nat` sends permutation-equivalent digest lists
to the same sorted list. -/
theorem insertionSort_eq_of_perm {l1 l2 : List Nat} (p : l1.Perm l2) :
    List.insertionSort (· ≤ ·) l1 = List.insertionSort (· ≤ ·) l2 :=
  List.eq_of_perm_of_sorted
    ((List.perm_insertionSort _ l1).trans (p.trans (List.perm_insertionSort _ l2).symm))
    (List.sorted_insertionSort _ l1) (List.sorted_insertionSort _ l2)

/-- `OptPerm` is transitive. -/
theorem optPerm_trans {a b c : Option (List Nat)} (h1 : OptPerm a b) (h2 : OptPerm b c) :
    OptPerm a c := by
  cases a with
  | none =>
      cases b with
      | none => exact h2
      | some rb => exact h1.elim
  | some ra =>
      cases b with
      | none => exact h1.elim
      | some rb =>
          cases c with
          | none => exact h2.elim
          | some rc => exact (List.Perm.trans (h1 : ra.Perm rb) (h2 : rb.Perm rc) : ra.Perm rc)

/-- Permuting the iteration order of the associated-name list permutes (or
uniformly fails) the per-file digest list of the set branch. -/
theorem hashNamed_perm (H : List Nat → Nat) (fs : FSTree) (td : List String)
    {l1 l2 : List (List String)} (p : l1.Perm l2) :
    OptPerm (hashNamed H fs td l1) (hashNamed H fs td l2) := by
  induction p with
  | nil => exact List.Perm.refl []
  | cons x p ih =>
      simp only [hashNamed]
      cases hx : readFile fs (td ++ x) with
      | none => trivial
      | some c =>
          cases h1 : hashNamed H fs td _ with
          | none =>
              cases h2 : hashNamed H fs td _ with
              | none => trivial
              | some r2 => rw [h1, h2] at ih; exact ih.elim
          | some r1 =>
              cases h2 : hashNamed H fs td _ with
              | none => rw [h1, h2] at ih; exact ih.elim
              | some r2 =>
                  rw [h1, h2] at ih
                  exact (List.Perm.cons (fileHash H c) (ih : r1.Perm r2) :
                    (fileHash H c :: r1).Perm (fileHash H c :: r2))
  | swap x y l =>
      simp only [hashNamed]
      cases hy : readFile fs (td ++ y) with
      | none =>
          cases hx : readFile fs (td ++ x) with
          | none => trivial
          | some cx => cases hashNamed H fs td l <;> trivial
      | some cy =>
          cases hx : readFile fs (td ++ x) with
          | none => trivial
          | some cx =>
              cases hashNamed H fs td l with
              | none => trivial
              | some r =>
                  exact (List.Perm.swap (fileHash H cx) (fileHash H cy) r :
                    (fileHash H cy :: fileHash H cx :: r).Perm
                      (fileHash H cx :: fileHash H cy :: r))
  | trans p1 p2 ih1 ih2 => exact optPerm_trans ih1 ih2

/-- The set branch hashes exactly the named files' contents, in order. -/
theorem hashNamed_eq_resolveAll (H : List Nat → Nat) (fs : FSTree) (td : List String)
    (names : List (List String)) :
    hashNamed H fs td names =
      (resolveAll fs td names).map (fun cs => cs.map (fileHash H)) := by
  induction names with
  | nil => rfl
  | cons n rest ih =>
      simp only [hashNamed, resolveAll]
      cases readFile fs (td ++ n) with
      | none => rfl
      | some c =>
          cases h : resolveAll fs td rest with
          | none => rw [ih, h]; rfl
          | some cs => rw [ih, h]; rfl

/-- C1: `hash_all`'s digest is independent of the iteration order of the
associated set — any permutation of the set's iteration order yields the same
digest — and walking a directory that visits exactly the same file contents as
an explicit set of associated files yields the same digest as that set,
because the per-file digests are sorted before the final combining hash. -/
theorem hash_all_order_independent_and_walk_equals_set :
    (∀ (H : List Nat → Nat) (fs : FSTree) (tp : List String)
        (l1 l2 : List (List String)), l1.Perm l2 →
        hash_all H fs tp (ImportDirs.fset l1) = hash_all H fs tp (ImportDirs.fset l2)) ∧
    (∀ (H : List Nat → Nat) (fs : FSTree) (tp : List String)
        (names : List (List String)) (dpath : List String) (cs : List (List Nat)),
        resolveAll fs tp.dropLast names = some cs →
        (walkContents fs dpath).Perm cs →
        hash_all H fs tp (ImportDirs.dirs dpath) = hash_all H fs tp (ImportDirs.fset names)) := by
  constructor
  · intro H fs tp l1 l2 p
    simp only [hash_all]
    cases readFile fs tp with
    | none => rfl
    | some rootContent =>
        have hp := hashNamed_perm H fs tp.dropLast p
        cases h1 : hashNamed H fs tp.dropLast l1 with
        | none =>
            cases h2 : hashNamed H fs tp.dropLast l2 with
            | none => rfl
            | some r2 => rw [h1, h2] at hp; exact hp.elim
        | some r1 =>
            cases h2 : hashNamed H fs tp.dropLast l2 with
            | none => rw [h1, h2] at hp; exact hp.elim
            | some r2 =>
                rw [h1, h2] at hp
                have : List.insertionSort (· ≤ ·) (fileHash H rootContent :: r1) =
                    List.insertionSort (· ≤ ·) (fileHash H rootContent :: r2) :=
                  insertionSort_eq_of_perm (List.Perm.cons _ (hp : r1.Perm r2))
                exact congrArg (fun l => some (H l)) this
  · intro H fs tp names dpath cs hres hperm
    simp only [hash_all]
    cases readFile fs tp with
    | none => rfl
    | some rootContent =>
        rw [hashNamed_eq_resolveAll, hres]
        have : List.insertionSort (· ≤ ·)
            (fileHash H rootContent :: (walkContents fs dpath).map (fileHash H)) =
            List.insertionSort (· ≤ ·)
              (fileHash H rootContent :: cs.map (fileHash H)) :=
          insertionSort_eq_of_perm (List.Perm.cons _ (hperm.map (fileHash H)))
        exact congrArg (fun l => some (H l)) this

/-- C9: `hash_all` does not distinguish the root file from the associated
files — for two distinct files in the same directory,
`hash_all(a, {b}) = hash_all(b, {a})`, since the root digest is placed in the
same list as the associated digests and the list is sorted before the final
combining hash. -/
theorem hash_all_root_associated_symmetric :
    ∀ (H : List Nat → Nat) (fs : FSTree) (d : List String) (na nb : String)
      (ca cb : List Nat), na ≠ nb →
      readFile fs (d ++ [na]) = some ca →
      readFile fs (d ++ [nb]) = some cb →
      hash_all H fs (d ++ [na]) (ImportDirs.fset [[nb]]) =
        hash_all H fs (d ++ [nb]) (ImportDirs.fset [[na]]) := by
  intro H fs d na nb ca cb _ ha hb
  have hda : (d ++ [na]).dropLast = d := List.dropLast_concat ..
  have hdb : (d ++ [nb]).dropLast = d := List.dropLast_concat ..
  simp only [hash_all, hashNamed, ha, hb, hda, hdb]
  exact congrArg (fun l => some (H l))
    (insertionSort_eq_of_perm (List.Perm.swap (fileHash H cb) (fileHash H ca) []))

/-- A file node contributes nothing to the walk. -/
theorem walkFiles_file (c : List Nat) : walkFiles (FSTree.file c) = [] := by
  rw [walkFiles]

/-- The walk of a directory, with the bookkeeping `attach` removed. -/
theorem walkFiles_dir (es : List (String × FSTree)) :
    walkFiles (FSTree.dir es) =
      ((sortEntries es).filterMap fun e =>
        match e.2 with
        | .file c => some c
        | .dir _ => Option.none) ++
      ((sortEntries es).map fun e => walkFiles e.2).flatten := by
  rw [walkFiles]
  congr 1
  rw [List.map_attach]
  simp

/-- The concrete walk used by the witness below. -/
theorem wFS_walk_incl : walkContents wFS ["incl"] = [[3], [4, 5]] := by
  have hr : wFS.resolve ["incl"] =
      some (FSTree.dir [("a.yaml", FSTree.file [3]), ("b.yaml", FSTree.file [4, 5])]) := rfl
  rw [walkContents, hr]
  show walkFiles (FSTree.dir [("a.yaml", FSTree.file [3]), ("b.yaml", FSTree.file [4, 5])]) =
    [[3], [4, 5]]
  rw [walkFiles_dir]
  have hs : sortEntries [("a.yaml", FSTree.file [3]), ("b.yaml", FSTree.file [4, 5])] =
      [("a.yaml", FSTree.file [3]), ("b.yaml", FSTree.file [4, 5])] := rfl
  rw [hs]
  simp [walkFiles_file]

/-- Witness for C1: `{a, b}` vs `{b, a}`, and the directory `incl` holding the
same two files vs the explicit set. -/
theorem hash_all_order_independent_and_walk_equals_set_witness :
    hash_all wHash wFS ["root.yaml"] (ImportDirs.fset [["a.yaml"], ["b.yaml"]]) =
      hash_all wHash wFS ["root.yaml"] (ImportDirs.fset [["b.yaml"], ["a.yaml"]]) ∧
    hash_all wHash wFS ["root.yaml"] (ImportDirs.dirs ["incl"]) =
      hash_all wHash wFS ["root.yaml"] (ImportDirs.fset [["a.yaml"], ["b.yaml"]]) :=
  ⟨hash_all_order_independent_and_walk_equals_set.1 wHash wFS ["root.yaml"]
     [["a.yaml"], ["b.yaml"]] [["b.yaml"], ["a.yaml"]] (by decide),
   hash_all_order_independent_and_walk_equals_set.2 wHash wFS ["root.yaml"]
     [["a.yaml"], ["b.yaml"]] ["incl"] [[3], [4, 5]] rfl
     (by rw [wFS_walk_incl])⟩

/-- Witness for C9: two distinct sibling files swapped between the root and
associated roles. -/
theorem hash_all_root_associated_symmetric_witness :
    hash_all wHash wFS ["a.yaml"] (ImportDirs.fset [["b.yaml"]]) =
      hash_all wHash wFS ["b.yaml"] (ImportDirs.fset [["a.yaml"]]) :=
  hash_all_root_associated_symmetric wHash wFS [] "a.yaml" "b.yaml" [3] [4, 5]
    (by decide) rfl rfl

/-- C2 counterexample: the string `"1-"` — a trailing `-` with no digits — is
accepted by the syntax phase (the regex matches, with no captured build),
while the claimed grammar `major[.minor[.fix[.qualifier]]][-build]` with a
digit-sequence build rejects it; and `"1.0.0.rc1-42"` is accepted with its
build field holding only `"2"`, not the entire digit sequence `"42"`. -/
theorem tosca_syntax_phase_counterexample :
    (VERSION_RE_match "1-").isSome = true ∧
    claimGrammar "1-" = false ∧
    VERSION_RE_match "1.0.0.rc1-42" =
      some ⟨"1", some "0", some "0", some "rc1", some "2"⟩ ∧
    (some "2" : Option String) ≠ some "42" :=
  ⟨by decide, by decide, by decide, by decide⟩

/-- `findSome?` succeeds exactly when some listed alternative succeeds. -/
theorem findSome?_isSome {α β : Type} {l : List α} {f : α → Option β} :
    ((l.findSome? f).isSome = true) ↔ ∃ a ∈ l, (f a).isSome = true := by
  induction l with
  | nil => simp [List.findSome?_nil]
  | cons a l ih =>
      simp only [List.findSome?_cons]
      cases h : f a with
      | none => simp [h, ih]
      | some b => simp [h]

/-- The guarded success at the end of the matcher succeeds exactly when the
guard holds. -/
theorem isSome_ite_some {α : Type} {c : Prop} [Decidable c] {x : α} :
    ((if c then some x else Option.none).isSome = true) ↔ c := by
  split
  · simpa
  · simpa

/-- A `takeWhile` run is no longer than the list. -/
theorem takeWhile_length_le (cls : Char → Bool) (s : List Char) :
    (s.takeWhile cls).length ≤ s.length := by
  induction s with
  | nil => simp
  | cons c t ih =>
      by_cases h : cls c = true
      · simp [List.takeWhile_cons, h]
        omega
      · simp [List.takeWhile_cons, h]

/-- Any prefix not longer than the `takeWhile` run satisfies the class. -/
theorem all_take_of_le_takeWhile {cls : Char → Bool} {s : List Char} {k : Nat}
    (h : k ≤ (s.takeWhile cls).length) : (s.take k).all cls = true := by
  induction s generalizing k with
  | nil => simp at h; simp [h]
  | cons c t ih =>
      by_cases hc : cls c = true
      · cases k with
        | zero => simp
        | succ k =>
            simp only [List.takeWhile_cons, hc, if_true, List.length_cons,
              Nat.add_le_add_iff_right] at h
            rw [List.take_succ_cons, List.all_cons, ih h]
            simp [hc]
      · have hcf : cls c = false := by revert hc; cases cls c <;> simp
        simp only [List.takeWhile_cons, hcf] at h
        simp at h
        simp [h]

/-- `takeWhile` passes over an all-class prefix. -/
theorem takeWhile_append_of_all {cls : Char → Bool} {p r : List Char}
    (h : p.all cls = true) : (p ++ r).takeWhile cls = p ++ r.takeWhile cls := by
  induction p with
  | nil => simp
  | cons c t ih =>
      simp only [List.all_cons, Bool.and_eq_true] at h
      simp [List.takeWhile_cons, h.1, ih h.2]

/-- The `takeWhile` run covers the whole list exactly when every element
satisfies the class. -/
theorem takeWhile_length_eq_iff_all {cls : Char → Bool} {s : List Char} :
    (s.takeWhile cls).length = s.length ↔ s.all cls = true := by
  induction s with
  | nil => simp
  | cons c t ih =>
      by_cases hc : cls c = true
      · simp [List.takeWhile_cons, hc, ih]
      · have hle := takeWhile_length_le cls t
        simp only [List.takeWhile_cons, hc, if_false, Bool.false_eq_true,
          List.length_nil, List.length_cons, List.all_cons]
        constructor
        · intro h; omega
        · intro h; simp [hc] at h

/-- The alternatives of a greedy class-plus piece are exactly the splits whose
front is a nonempty run of class characters. -/
theorem mem_charSeqSplits {cls : Char → Bool} {s p r : List Char} :
    (p, r) ∈ charSeqSplits cls s ↔ s = p ++ r ∧ p ≠ [] ∧ p.all cls = true := by
  unfold charSeqSplits
  simp only [List.mem_map, List.mem_range, Prod.mk.injEq]
  constructor
  · rintro ⟨i, hi, hp, hr⟩
    have hk1 : 1 ≤ (s.takeWhile cls).length - i := by omega
    have hkn : (s.takeWhile cls).length - i ≤ (s.takeWhile cls).length := by omega
    have hsl := takeWhile_length_le cls s
    refine ⟨by rw [← hp, ← hr]; exact (List.take_append_drop _ s).symm, ?_, ?_⟩
    · rw [← hp]
      have : (s.take ((s.takeWhile cls).length - i)).length =
          (s.takeWhile cls).length - i := by
        rw [List.length_take]
        omega
      intro hnil
      rw [hnil] at this
      simp at this
      omega
    · rw [← hp]; exact all_take_of_le_takeWhile hkn
  · rintro ⟨hs, hp, hall⟩
    have hk1 : 1 ≤ p.length := List.length_pos.mpr hp
    have hkn : p.length ≤ (s.takeWhile cls).length := by
      rw [hs, takeWhile_append_of_all hall]
      simp
    refine ⟨(s.takeWhile cls).length - p.length, by omega, ?_, ?_⟩
    · have : (s.takeWhile cls).length - ((s.takeWhile cls).length - p.length) =
          p.length := by omega
      rw [this, hs, List.take_left]
    · have : (s.takeWhile cls).length - ((s.takeWhile cls).length - p.length) =
          p.length := by omega
      rw [this, hs, List.drop_left]

/-- Every alternative of an optional dotted component splits its input as
`dotPart o ++ r`, with the capture a nonempty class run when present. -/
theorem dotComponent_shape {cls : Char → Bool} {s : List Char} {o : Option (List Char)}
    {r : List Char} (h : (o, r) ∈ dotComponent cls s) :
    s = dotPart o ++ r ∧ OptIs (ClsSeq cls) o := by
  unfold dotComponent at h
  rw [List.mem_append] at h
  cases h with
  | inr h =>
      simp only [List.mem_singleton, Prod.mk.injEq] at h
      rw [h.1, ← h.2]
      exact ⟨rfl, trivial⟩
  | inl h =>
      split at h
      · rename_i c t
        by_cases hc : c = '.'
        · subst hc
          rw [if_pos rfl] at h
          rw [List.mem_map] at h
          obtain ⟨⟨p1, p2⟩, hpr, heq⟩ := h
          obtain ⟨hs, hne, hall⟩ := mem_charSeqSplits.mp hpr
          have ho : o = some p1 := by
            have := congrArg Prod.fst heq
            simpa using this.symm
          have hr : r = p2 := by
            have := congrArg Prod.snd heq
            simpa using this.symm
          rw [ho, hr, hs]
          exact ⟨rfl, ⟨hne, hall⟩⟩
        · rw [if_neg hc] at h
          simp at h
      · simp at h

/-- Conversely, every `dotPart o ++ r` split with a valid capture is listed. -/
theorem dotComponent_shape_rev {cls : Char → Bool} {o : Option (List Char)}
    {r : List Char} (h : OptIs (ClsSeq cls) o) :
    (o, r) ∈ dotComponent cls (dotPart o ++ r) := by
  cases o with
  | none =>
      unfold dotComponent
      rw [List.mem_append]
      right
      simp [dotPart]
  | some p =>
      unfold dotComponent
      rw [List.mem_append]
      left
      have hp : dotPart (some p) ++ r = '.' :: (p ++ r) := rfl
      rw [hp]
      show (some p, r) ∈
        (if ('.' : Char) = '.' then
          (charSeqSplits cls (p ++ r)).map (fun pr => (some pr.1, pr.2)) else [])
      rw [if_pos rfl, List.mem_map]
      exact ⟨(p, r), mem_charSeqSplits.mpr ⟨rfl, h.1, h.2⟩, rfl⟩

/-- Every alternative of the optional build piece whose rest reaches `$`
splits its input as `dashPart bd ++ nl` with `bd` all digits and `nl` empty or
one newline. -/
theorem buildComponent_dollar_shape {s : List Char} {o : Option (List Char)}
    {r : List Char} (h : (o, r) ∈ buildComponent s) (hd : atDollar r = true) :
    ∃ bd nl, (nl = [] ∨ nl = ['\n']) ∧ s = dashPart bd ++ nl ∧
      OptIs (fun d => d.all Char.isDigit = true) bd := by
  have hr : r = [] ∨ r = ['\n'] := by
    unfold atDollar at hd
    simpa using hd
  unfold buildComponent at h
  rw [List.mem_append] at h
  cases h with
  | inr h =>
      simp only [List.mem_singleton, Prod.mk.injEq] at h
      exact ⟨Option.none, r, hr, by rw [← h.2]; rfl, trivial⟩
  | inl h =>
      split at h
      · rename_i c rest
        by_cases hc : c = '-'
        · subst hc
          rw [if_pos rfl] at h
          rw [List.mem_map] at h
          obtain ⟨i, hi, heq⟩ := h
          rw [List.mem_range] at hi
          have hrr : r = rest.drop ((rest.takeWhile Char.isDigit).length - i) := by
            have := congrArg Prod.snd heq
            simpa using this.symm
          have hkn : (rest.takeWhile Char.isDigit).length - i ≤
              (rest.takeWhile Char.isDigit).length := by omega
          have hnl : rest.length ≤ ((rest.takeWhile Char.isDigit).length - i) ∨
              r = ['\n'] := by
            cases hr with
            | inl hre =>
                left
                have := congrArg List.length (hrr ▸ hre : rest.drop _ = [])
                simp [List.length_drop] at this
                omega
            | inr hre => right; exact hre
          cases hnl with
          | inl hlen =>
              have hkeq : (rest.takeWhile Char.isDigit).length - i = rest.length := by
                have := takeWhile_length_le Char.isDigit rest
                omega
              have hallrest : rest.all Char.isDigit = true := by
                rw [← takeWhile_length_eq_iff_all]
                have := takeWhile_length_le Char.isDigit rest
                omega
              refine ⟨some rest, [], Or.inl rfl, ?_, hallrest⟩
              simp [dashPart]
          | inr hre =>
              refine ⟨some (rest.take ((rest.takeWhile Char.isDigit).length - i)),
                ['\n'], Or.inr rfl, ?_, all_take_of_le_takeWhile hkn⟩
              have : rest = rest.take ((rest.takeWhile Char.isDigit).length - i) ++ ['\n'] := by
                conv_lhs => rw [← List.take_append_drop
                  ((rest.takeWhile Char.isDigit).length - i) rest]
                rw [← hrr, hre]
              rw [dashPart, List.cons_append, ← this]
        · rw [if_neg hc] at h
          simp at h
      · simp at h

/-- Conversely, each `dashPart bd ++ nl` split with an all-digit `bd` has a
listed build alternative whose rest reaches `$`. -/
theorem buildComponent_dollar_rev {bd : Option (List Char)} {nl : List Char}
    (hnl : nl = [] ∨ nl = ['\n'])
    (hbd : OptIs (fun d => d.all Char.isDigit = true) bd) :
    ∃ b ∈ buildComponent (dashPart bd ++ nl), atDollar b.2 = true := by
  have hdollar : atDollar nl = true := by
    cases hnl with
    | inl h => simp [atDollar, h]
    | inr h => simp [atDollar, h]
  cases bd with
  | none =>
      refine ⟨(Option.none, nl), ?_, hdollar⟩
      unfold buildComponent
      rw [List.mem_append]
      right
      simp [dashPart]
  | some ds =>
      have hall : ds.all Char.isDigit = true := hbd
      have hn : ds.length ≤ ((ds ++ nl).takeWhile Char.isDigit).length := by
        rw [takeWhile_append_of_all hall]
        simp
      refine ⟨((((ds ++ nl).take ds.length).getLast?).map (fun ch => [ch]),
        (ds ++ nl).drop ds.length), ?_, ?_⟩
      · unfold buildComponent
        rw [List.mem_append]
        left
        have hp : dashPart (some ds) ++ nl = '-' :: (ds ++ nl) := rfl
        rw [hp]
        show _ ∈ (if ('-' : Char) = '-' then
          (List.range (((ds ++ nl).takeWhile Char.isDigit).length + 1)).map (fun i =>
            ((((ds ++ nl).take (((ds ++ nl).takeWhile Char.isDigit).length - i)).getLast?).map
              (fun ch => [ch]),
             (ds ++ nl).drop (((ds ++ nl).takeWhile Char.isDigit).length - i))) else [])
        rw [if_pos rfl, List.mem_map]
        refine ⟨((ds ++ nl).takeWhile Char.isDigit).length - ds.length, ?_, ?_⟩
        · rw [List.mem_range]; omega
        · have hk : ((ds ++ nl).takeWhile Char.isDigit).length -
              (((ds ++ nl).takeWhile Char.isDigit).length - ds.length) = ds.length := by
            omega
          rw [hk]
      · rw [List.drop_left]
        exact hdollar

/-- C2 (amended): the syntax phase accepts a string iff it matches
`major(.minor)?(.fix)?(.qualifier)?(-build)?` — each dotted component
independently optional, `major`/`minor`/`fix` digit runs, `qualifier`
alphanumeric, `build` a *possibly empty* digit run (so a trailing `-` with no
digits is accepted), with one trailing newline tolerated; and the build group
captures only the last digit, so `"1.0.0.rc1-42"` is accepted with build
`"2"`. -/
theorem tosca_syntax_accepted_iff_regexLang :
    (∀ s : String, (VERSION_RE_match s).isSome = true ↔ regexLang s) ∧
    VERSION_RE_match "1.0.0.rc1-42" =
      some ⟨"1", some "0", some "0", some "rc1", some "2"⟩ := by
  refine ⟨?_, by decide⟩
  intro s
  unfold VERSION_RE_match
  simp only [findSome?_isSome, isSome_ite_some]
  unfold regexLang
  constructor
  · rintro ⟨mj, hmj, mi, hmi, fx, hfx, q, hq, b, hb, hd⟩
    obtain ⟨mj1, mj2⟩ := mj
    obtain ⟨mi1, mi2⟩ := mi
    obtain ⟨fx1, fx2⟩ := fx
    obtain ⟨q1, q2⟩ := q
    obtain ⟨b1, b2⟩ := b
    obtain ⟨hs0, hne, hall⟩ := mem_charSeqSplits.mp hmj
    obtain ⟨h1, hcls1⟩ := dotComponent_shape hmi
    obtain ⟨h2, hcls2⟩ := dotComponent_shape hfx
    obtain ⟨h3, hcls3⟩ := dotComponent_shape hq
    obtain ⟨bd, nl, hnl, h4, hbd⟩ := buildComponent_dollar_shape hb hd
    refine ⟨mj1, mi1, fx1, q1, bd, nl, ?_, ⟨hne, hall⟩, hcls1, hcls2, hcls3, hbd, hnl⟩
    dsimp only at h1 h2 h3 h4
    rw [hs0, h1, h2, h3, h4]
    simp [List.append_assoc]
  · rintro ⟨mj, mi, fx, q, bd, nl, hs0, hmj, hmi, hfx, hq, hbd, hnl⟩
    obtain ⟨b, hbmem, hbdollar⟩ := buildComponent_dollar_rev hnl hbd
    refine ⟨(mj, dotPart mi ++ (dotPart fx ++ (dotPart q ++ (dashPart bd ++ nl)))),
      mem_charSeqSplits.mpr ⟨?_, hmj.1, hmj.2⟩,
      (mi, dotPart fx ++ (dotPart q ++ (dashPart bd ++ nl))), dotComponent_shape_rev hmi,
      (fx, dotPart q ++ (dashPart bd ++ nl)), dotComponent_shape_rev hfx,
      (q, dashPart bd ++ nl), dotComponent_shape_rev hq,
      b, hbmem, hbdollar⟩
    rw [hs0]
    simp [List.append_assoc]
